import Mathlib

/-!
Shallow embedding of the `coder` repository (LLM.py, agent.py, browse.py,
search.py) and proofs about it.  Pure fragments of the Python code become
Lean functions; calls into third-party SDKs and the OS are abstracted as
oracle parameters; Python exceptions become explicit error values.
-/

/-! ## Python values

A small model of the JSON-like Python values built and returned by the
scripts.  `obj` stands for an opaque non-JSON Python object (such as a
BeautifulSoup instance) stored in a result dictionary. -/

inductive PyVal where
  | str (s : String)
  | int (n : Int)
  | bool (b : Bool)
  | null
  | list (l : List PyVal)
  | dict (l : List (String × PyVal))
  | obj (tag : String)

/-- Dictionary lookup on a `PyVal` (first binding of the key wins;
the dictionaries the code builds have distinct keys). -/
def PyVal.lookup : PyVal → String → Option PyVal
  | .dict kvs, k => (kvs.find? (fun p => p.1 = k)).map Prod.snd
  | _, _ => none

/-- Whether a `PyVal` is a Python dictionary. -/
def PyVal.isDict : PyVal → Bool
  | .dict _ => true
  | _ => false

/-! ## LLM.py -/

/-- A role-tagged chat message, as in the JSON payloads LLM.py handles. -/
structure Msg where
  role : String
  content : String
  deriving DecidableEq, Repr

/-- The fields of the POSTed JSON body that `ChatRequestHandler.do_POST`
reads: `post_data.get("messages")` (absent = `none`),
`post_data.get("system")` and `post_data.get("stream", False)`. -/
structure ChatPayload where
  messages : Option (List Msg)
  system : Option String
  stream : Bool
  deriving DecidableEq, Repr

/-- Python truthiness of `post_data.get("system")`: an absent key gives
`None` (falsy) and an empty string is falsy. -/
def systemTruthy (p : ChatPayload) : Bool :=
  match p.system with
  | some s => s ≠ ""
  | none => false

/-- The system message `do_POST` inserts at index 0 when the payload's
`system` field is truthy. -/
def sysMsgOf (p : ChatPayload) : Msg :=
  { role := "system", content := p.system.getD ("") }

/-- The Python exceptions the modelled code paths can raise. -/
inductive PyErr where
  | assertionError
  | indexError
  | typeError
  | attributeError
  deriving DecidableEq, Repr

/-- Lines 59–62 of LLM.py: read `messages`, optionally insert the system
message, then `assert messages[0]["role"] == "system"`.

* `messages` absent (`None`): `None.insert(...)` raises `AttributeError`
  when `system` is truthy, otherwise `None[0]` raises `TypeError`;
* `messages` an empty list (after the optional insert): `messages[0]`
  raises `IndexError`;
* first role not `"system"`: the `assert` raises `AssertionError`. -/
def preparedMessages (p : ChatPayload) : Except PyErr (List Msg) :=
  match p.messages with
  | none =>
    if systemTruthy p then .error .attributeError else .error .typeError
  | some ms =>
    let ms := if systemTruthy p then sysMsgOf p :: ms else ms
    match ms with
    | [] => .error .indexError
    | m :: rest => if m.role = "system" then .ok (m :: rest) else .error .assertionError

/-- A model of the `Model` class: just a name. -/
structure PyModel where
  name : String
  deriving DecidableEq, Repr

/-- The state of the global `LLMs` object: its `models` list. -/
structure LLMsState where
  models : List PyModel
  deriving DecidableEq, Repr

/-- The global `llm = LLMs()` as initialised by `LLMs.__init__`. -/
def llmInit : LLMsState :=
  { models := [{ name := "gemini/gemini-exp-1206" }, { name := "cerebras/llama3-70b-instruct" }] }

/-- The answer of the wrapped `litellm.completion` call, abstracted to the
one field the code extracts (`response['choices'][0]['message']['content']`). -/
structure SDKResponse where
  content : String
  deriving DecidableEq, Repr

/-- `LLMs.completion`: call `completion(model=self.models[0].name,
messages=messages)` and return the content string.  `none` models the
`IndexError` of `self.models[0]` on an empty model list. -/
def LLMs.completion (st : LLMsState) (sdk : String → List Msg → SDKResponse)
    (messages : List Msg) : Option String :=
  match st.models with
  | [] => none
  | m :: _ => some ((sdk m.name messages).content)

/-- The first streamed chunk (LLM.py lines 75–81): the content delta. -/
def chunkDelta (cid : String) (created : Nat) (content : String) : PyVal :=
  .dict [("id", .str cid), ("model", .str ("default")),
         ("object", .str ("chat.completion.chunk")), ("created", .int created),
         ("choices", .list [.dict [("index", .int 0),
            ("delta", .dict [("role", .str ("assistant")), ("content", .str content)]),
            ("finish_reason", .null)]])]

/-- The second streamed chunk (LLM.py lines 85–91): the finish chunk. -/
def chunkFinish (cid : String) (created : Nat) : PyVal :=
  .dict [("id", .str cid), ("model", .str ("default")),
         ("object", .str ("chat.completion.chunk")), ("created", .int created),
         ("choices", .list [.dict [("index", .int 0),
            ("delta", .dict []), ("finish_reason", .str ("stop"))]])]

/-- The non-streaming JSON body (LLM.py lines 98–104). -/
def nonStreamBody (cid : String) (created : Nat) (content : String) : PyVal :=
  .dict [("id", .str cid), ("model", .str ("default")),
         ("object", .str ("chat.completion")), ("created", .int created),
         ("choices", .list [.dict [("index", .int 0),
            ("message", .dict [("role", .str ("assistant")), ("content", .str content)]),
            ("finish_reason", .str ("stop"))]])]

/-- What `do_POST` writes on the socket: either the two server-sent-event
chunks of the streaming branch or the single JSON body. -/
inductive WrittenResponse where
  | sse (chunks : List PyVal)
  | json (body : PyVal)

/-- Outcome of one completed `do_POST`: the message lists passed to
`llm.completion` (in call order) and the response written. -/
structure DoPostResult where
  calls : List (List Msg)
  response : WrittenResponse

/-- `ChatRequestHandler.do_POST` (LLM.py lines 56–104).  `sdk` abstracts
the wrapped `litellm.completion`; `tid`, `t1`, `t2` are the successive
values of `int(time.time())`. -/
def doPOST (st : LLMsState) (sdk : String → List Msg → SDKResponse)
    (p : ChatPayload) (tid t1 t2 : Nat) : Except PyErr DoPostResult :=
  match preparedMessages p with
  | .error e => .error e
  | .ok msgs =>
    match LLMs.completion st sdk msgs with
    | none => .error .indexError
    | some response_data =>
      let cid := "chatcmpl-" ++ toString tid
      if p.stream then
        .ok { calls := [msgs],
              response := .sse [chunkDelta cid t1 response_data, chunkFinish cid t2] }
      else
        .ok { calls := [msgs],
              response := .json (nonStreamBody cid t1 response_data) }

/-- One incoming POST request: its payload and the clock values observed
while handling it. -/
structure ChatRequest where
  payload : ChatPayload
  tid : Nat
  t1 : Nat
  t2 : Nat
  deriving DecidableEq, Repr

/-- The server loop: handle requests one after the other, threading the
server-side state (the global `LLMs` object) through.  `do_POST` never
assigns to `llm`, its `models` list or any handler field, so the state
passes through each step unchanged. -/
def processAll (st : LLMsState) (sdk : String → List Msg → SDKResponse) :
    List ChatRequest → LLMsState × List (Except PyErr DoPostResult)
  | [] => (st, [])
  | r :: rs =>
    let resp := doPOST st sdk r.payload r.tid r.t1 r.t2
    let rest := processAll st sdk rs
    (rest.1, resp :: rest.2)

/-- First choice of a response body: `body["choices"][0]`. -/
def firstChoice (v : PyVal) : Option PyVal :=
  match v.lookup ("choices") with
  | some (.list (c :: _)) => some c
  | _ => none

/-! ## agent.py -/

/-- Data the success path of `Agent.browse` gathers from the external
`requests` response and the BeautifulSoup parse. -/
structure BrowseData where
  status_code : Int
  url : String
  title : Option String
  html : String
  selectedText : List String
  selectedHtml : List String
  deriving DecidableEq, Repr

/-- `Agent.browse` (agent.py lines 40–76).  `outcome` abstracts the
`session.get` call: `.error e` models a raised
`requests.exceptions.RequestException` with message `str(e)`. -/
def Agent.browse (selector : Option String) (outcome : Except String BrowseData) : PyVal :=
  match outcome with
  | .error e => .dict [("error", .str e)]
  | .ok d =>
    let base := [("status_code", .int d.status_code), ("url", .str d.url),
                 ("title", match d.title with | some t => .str t | none => .null),
                 ("html", .str d.html), ("soup", .obj ("soup"))]
    match selector with
    | some _ =>
      .dict (base ++ [("selected_content", .list (d.selectedText.map .str)),
                      ("selected_html", .list (d.selectedHtml.map .str))])
    | none => .dict base

/-- One DuckDuckGo result as parsed from the page: `none` models a
`.result` element missing its title or url. -/
structure SearchItem where
  title : String
  url : String
  deriving DecidableEq, Repr

/-- `Agent.search` (agent.py lines 78–118).  `outcome` abstracts the HTTP
request and soup parse; on an exception the method returns a singleton
LIST holding the error dictionary. -/
def Agent.search (num_results : Nat)
    (outcome : Except String (List (Option SearchItem))) : PyVal :=
  match outcome with
  | .error e => .list [.dict [("error", .str e)]]
  | .ok raw =>
    .list (((raw.take num_results).filterMap id).map
      (fun i => .dict [("title", .str i.title), ("url", .str i.url)]))

/-- Outcome of the `subprocess` call inside `Agent.run_command`: normal
completion, a `subprocess.TimeoutExpired` (whose own message `msg` the
code does not use), or another exception. -/
inductive RunOutcome where
  | completed (stdout stderr : String) (returncode : Int)
  | timeoutExpired (msg : String)
  | exn (msg : String)
  deriving DecidableEq, Repr

/-- `Agent.run_command` (agent.py lines 120–168). -/
def Agent.run_command (timeout : Nat) (outcome : RunOutcome) : PyVal :=
  match outcome with
  | .completed out err rc =>
    .dict [("stdout", .str out), ("stderr", .str err), ("returncode", .int rc),
           ("success", .bool (rc = 0))]
  | .timeoutExpired _ =>
    .dict [("error", .str ("Command timed out after " ++ toString timeout ++ " seconds"))]
  | .exn e => .dict [("error", .str e)]

/-- `Agent.read_file` (agent.py lines 170–187).  `outcome` abstracts
`open(...).read()`. -/
def Agent.read_file (outcome : Except String String) : PyVal :=
  match outcome with
  | .ok c => .dict [("content", .str c), ("success", .bool true)]
  | .error e => .dict [("error", .str e), ("success", .bool false)]

/-- Where `Agent.write_file` can raise: while copying the backup or while
writing the new content. -/
inductive WriteOutcome where
  | ok
  | exnDuringBackup (msg : String)
  | exnDuringWrite (msg : String)
  deriving DecidableEq, Repr

/-- `Agent.write_file` (agent.py lines 189–224).  `fileExists` models
`os.path.exists(file_path)` and `t` the `int(time.time())` in the backup
name.  The returned dictionary is the final value of Python's `result`. -/
def Agent.write_file (file_path : String) (backup : Bool) (fileExists : Bool)
    (t : Nat) (outcome : WriteOutcome) : PyVal :=
  let backup_path := file_path ++ ".backup." ++ toString t
  let doBackup := fileExists && backup
  match outcome with
  | .ok =>
    if doBackup then .dict [("success", .bool true), ("backup_path", .str backup_path)]
    else .dict [("success", .bool true)]
  | .exnDuringBackup e => .dict [("success", .bool false), ("error", .str e)]
  | .exnDuringWrite e =>
    if doBackup then
      .dict [("success", .bool false), ("backup_path", .str backup_path), ("error", .str e)]
    else .dict [("success", .bool false), ("error", .str e)]

/-! ### `main` of agent.py (the command dispatcher) -/

/-- The names passed to `subparsers.add_parser` in `main`
(agent.py lines 329–351). -/
def registeredSubcommands : List String := ["browse", "search", "run", "read", "write"]

/-- The `Agent` method a subcommand dispatches to. -/
inductive AgentMethod where
  | browse
  | search
  | runCommand
  | readFile
  | writeFile
  deriving DecidableEq, Repr

/-- What the `if/elif/else` chain of `main` does with the parsed command. -/
inductive DispatchAction where
  | call (m : AgentMethod)
  | printHelp
  deriving DecidableEq, Repr

/-- The `if/elif/else` chain of `main` (agent.py lines 360–403) on
`args.command` (`none` models an absent subcommand). -/
def mainDispatch (command : Option String) : DispatchAction :=
  if command = some ("browse") then .call .browse
  else if command = some ("search") then .call .search
  else if command = some ("run") then .call .runCommand
  else if command = some ("read") then .call .readFile
  else if command = some ("write") then .call .writeFile
  else .printHelp

/-! ### `Agent.edit_code_file` (agent.py lines 226–276)

File contents are modelled as `List Char`.  `str.splitlines` and
`"\n".join` are transcribed below. -/

/-- The line-boundary characters of Python's `str.splitlines`. -/
def isLineBreak (c : Char) : Bool :=
  c = '\n' || c = '\r' || c = '\x0b' || c = '\x0c' ||
  c = '\x1c' || c = '\x1d' || c = '\x1e' || c = '\x85' ||
  c = '\u2028' || c = '\u2029'

/-- Worker for `str.splitlines`: `acc` is the current line, reversed.
`"\r\n"` counts as a single boundary; a trailing boundary does not open a
final empty line. -/
def splitAux : List Char → List Char → List (List Char)
  | [], acc => if acc.isEmpty then [] else [acc.reverse]
  | '\r' :: '\n' :: cs, acc => acc.reverse :: splitAux cs []
  | c :: cs, acc =>
    if isLineBreak c then acc.reverse :: splitAux cs []
    else splitAux cs (c :: acc)

/-- Python's `content.splitlines()` (without `keepends`). -/
def pySplitlines (content : List Char) : List (List Char) :=
  splitAux content []

/-- Python's `"\n".join(lines)`. -/
def joinNL : List (List Char) → List Char
  | [] => []
  | [l] => l
  | l :: ls => l ++ '\n' :: joinNL ls

/-- Normalise a Python slice index `i` against a list of length `len`:
negative indices count from the end, and both ends clamp. -/
def pyIdx (len : Nat) (i : Int) : Nat :=
  if i < 0 then (len + i).toNat else min i.toNat len

/-- Python slice assignment `l[a:b] = new` (an empty slice inserts). -/
def pySliceAssign (l : List α) (a b : Int) (new : List α) : List α :=
  let lo := pyIdx l.length a
  let hi := pyIdx l.length b
  l.take lo ++ new ++ l.drop (max lo hi)

/-- One edit operation of `Agent.edit_code_file`. -/
structure Edit where
  ty : String
  line_start : Int
  line_end : Int
  content : List Char
  deriving DecidableEq, Repr

/-- The body of the edit loop (agent.py lines 254–272) on one edit. -/
def applyEdit (lines : List (List Char)) (e : Edit) : List (List Char) :=
  let ls : Int := max 1 e.line_start - 1
  if e.ty = "replace" then pySliceAssign lines ls e.line_end (pySplitlines e.content)
  else if e.ty = "insert" then pySliceAssign lines ls ls (pySplitlines e.content)
  else if e.ty = "delete" then pySliceAssign lines ls e.line_end []
  else lines

/-- `sorted(edits, key=lambda e: e["line_start"], reverse=True)`:
a stable sort, descending on `line_start`. -/
def sortEdits (edits : List Edit) : List Edit :=
  edits.mergeSort (fun a b => b.line_start ≤ a.line_start)

/-- The content `Agent.edit_code_file` writes back for a file that read
back as `content`: split into lines, apply the sorted edits, join with
`"\n"` (agent.py lines 248–276). -/
def editCodeFileContent (content : List Char) (edits : List Edit) : List Char :=
  joinNL ((sortEdits edits).foldl applyEdit (pySplitlines content))

/-- Line terminators rewritten to `'\n'` (with `"\r\n"` collapsing to a
single `'\n'`); companion to `dropTrailingNewline` in the characterisation
of `joinNL ∘ pySplitlines`. -/
def normTerm : List Char → List Char
  | [] => []
  | '\r' :: '\n' :: cs => '\n' :: normTerm cs
  | c :: cs => (if isLineBreak c then '\n' else c) :: normTerm cs

/-- Remove one trailing `'\n'`, if present. -/
def dropTrailingNewline : List Char → List Char
  | [] => []
  | [c] => if c = '\n' then [] else [c]
  | c :: cs => c :: dropTrailingNewline cs

/-! ## search.py -/

/-- `do_search` (search.py lines 6–9): print one line per result of the
wrapped `googlesearch.search` call (abstracted as the `results` it
yields, rendered as strings) and fall off the end, returning `None`.
The pair is (printed lines, return value). -/
def do_search (query : String) (results : List String) : List String × Option String :=
  (results.map (fun r => "Found URL using googlesearch: " ++ r), none)

/-! ## browse.py -/

/-- `BestFirstCrawlingStrategy(max_depth=…, include_external=…)`; the
field `include_ext` models the library's `include_external` keyword. -/
structure BestFirstCrawlingStrategy where
  max_depth : Nat
  include_ext : Bool
  deriving DecidableEq, Repr

/-- The content filter handed to the markdown generator. -/
inductive ContentFilter where
  | pruningContentFilter
  deriving DecidableEq, Repr

/-- `DefaultMarkdownGenerator(content_filter=…)`. -/
structure DefaultMarkdownGenerator where
  content_filter : ContentFilter
  deriving DecidableEq, Repr

/-- The scraping strategy passed in the config. -/
inductive ScrapingStrategy where
  | lxmlWebScrapingStrategy
  deriving DecidableEq, Repr

/-- The `CrawlerRunConfig` keyword arguments both crawling routines pass. -/
structure CrawlerRunConfig where
  deep_crawl_strategy : BestFirstCrawlingStrategy
  markdown_generator : DefaultMarkdownGenerator
  scraping_strategy : ScrapingStrategy
  verbose : Bool
  deriving DecidableEq, Repr

/-- One result of `crawler.arun`: its `success` flag and
`markdown.fit_markdown`. -/
structure CrawlResult where
  success : Bool
  fit_markdown : String
  deriving DecidableEq, Repr

/-- `urlparse(url).netloc.replace(".", "_")` applied to a netloc. -/
def replaceDots (s : String) : String :=
  s.map (fun c => if c = '.' then '_' else c)

/-- A file written by a crawling routine: its path and content. -/
structure SavedFile where
  path : String
  content : String
  deriving DecidableEq, Repr

/-- `download_docs` (browse.py lines 48–68), abstracting the crawler as a
function from the run config to the list of crawl results: the config it
builds and the file it writes. -/
def download_docs (netloc : String)
    (crawl : CrawlerRunConfig → List CrawlResult) : CrawlerRunConfig × SavedFile :=
  let domain := replaceDots netloc
  let config : CrawlerRunConfig :=
    { deep_crawl_strategy := { max_depth := 1, include_ext := false },
      markdown_generator := { content_filter := .pruningContentFilter },
      scraping_strategy := .lxmlWebScrapingStrategy,
      verbose := true }
  let results := crawl config
  let markdowns := (results.filter (fun r => r.success)).map (fun r => r.fit_markdown)
  (config, { path := ".docs/" ++ domain ++ ".md",
             content := String.intercalate ("\n\n") markdowns })

/-- The crawling-and-saving portion of `download_documentation`
(browse.py lines 103–127), given the netloc of the documentation URL the
Google-search portion found: the config it builds and the file it
writes. -/
def download_documentation_crawl (netloc : String)
    (crawl : CrawlerRunConfig → List CrawlResult) : CrawlerRunConfig × SavedFile :=
  let domain := replaceDots netloc
  let output_filename := ".docs/" ++ domain ++ ".md"
  let config : CrawlerRunConfig :=
    { deep_crawl_strategy := { max_depth := 1, include_ext := false },
      markdown_generator := { content_filter := .pruningContentFilter },
      scraping_strategy := .lxmlWebScrapingStrategy,
      verbose := true }
  let results := crawl config
  let markdowns := (results.filter (fun r => r.success)).map (fun r => r.fit_markdown)
  (config, { path := output_filename,
             content := String.intercalate ("\n\n") markdowns })

/-- The content of the delta of the first streamed chunk:
`chunks[0]["choices"][0]["delta"]["content"]`. -/
def sseDeltaContent (r : WrittenResponse) : Option PyVal :=
  match r with
  | .sse (c :: _) =>
    (firstChoice c).bind (fun ch => (ch.lookup ("delta")).bind (fun d => d.lookup ("content")))
  | _ => none

/-- The content of the message of a non-streaming body:
`body["choices"][0]["message"]["content"]`. -/
def jsonMessageContent (r : WrittenResponse) : Option PyVal :=
  match r with
  | .json b =>
    (firstChoice b).bind (fun ch => (ch.lookup ("message")).bind (fun m => m.lookup ("content")))
  | _ => none

/-! ## Helper lemmas -/

theorem dropTrailingNewline_cons (c : Char) (ys : List Char) (h : ys ≠ []) :
    dropTrailingNewline (c :: ys) = c :: dropTrailingNewline ys := by
  cases ys with
  | nil => exact absurd rfl h
  | cons d ds => rfl

theorem joinNL_cons (l : List Char) (ls : List (List Char)) (h : ls ≠ []) :
    joinNL (l :: ls) = l ++ '\n' :: joinNL ls := by
  cases ls with
  | nil => exact absurd rfl h
  | cons m ms => rfl

set_option maxHeartbeats 2000000 in
theorem splitAux_ne_nil (cs acc : List Char) (h : cs ≠ []) : splitAux cs acc ≠ [] := by
  induction cs, acc using splitAux.induct with
  | case1 acc hacc => exact absurd rfl h
  | case2 acc hacc => exact absurd rfl h
  | case3 cs acc ih => simp [splitAux]
  | case4 c cs acc hne hb ih => rw [splitAux.eq_3 _ _ _ hne]; simp [hb]
  | case5 c cs acc hne hb ih =>
    rw [splitAux.eq_3 _ _ _ hne]
    simp only [hb, if_neg, Bool.false_eq_true, if_false]
    cases cs with
    | nil => simp [splitAux]
    | cons d ds => exact ih (by simp)

theorem normTerm_ne_nil (cs : List Char) (h : cs ≠ []) : normTerm cs ≠ [] := by
  induction cs using normTerm.induct with
  | case1 => exact absurd rfl h
  | case2 cs ih => simp [normTerm]
  | case3 c cs hne ih => rw [normTerm.eq_3 _ _ hne]; simp

theorem not_lb_ne_nl {c : Char} (h : ¬ isLineBreak c = true) : c ≠ '\n' := by
  intro hc; subst hc; simp [isLineBreak] at h

set_option maxHeartbeats 2000000 in
theorem joinNL_splitAux (cs acc : List Char) :
    joinNL (splitAux cs acc) = acc.reverse ++ dropTrailingNewline (normTerm cs) := by
  induction cs, acc using splitAux.induct with
  | case1 acc hacc =>
    rw [List.isEmpty_iff] at hacc
    subst hacc
    simp [splitAux, joinNL, normTerm, dropTrailingNewline]
  | case2 acc hacc =>
    simp [splitAux.eq_1, hacc, joinNL, normTerm, dropTrailingNewline]
  | case3 cs acc ih =>
    rw [show splitAux ('\r' :: '\n' :: cs) acc = acc.reverse :: splitAux cs [] from rfl]
    rw [normTerm.eq_2]
    by_cases hcs : cs = []
    · subst hcs
      simp [splitAux, joinNL, normTerm, dropTrailingNewline]
    · rw [joinNL_cons _ _ (splitAux_ne_nil _ _ hcs), ih,
          dropTrailingNewline_cons _ _ (normTerm_ne_nil _ hcs)]
      simp
  | case4 c cs acc hne hb ih =>
    rw [splitAux.eq_3 _ _ _ hne, if_pos hb, normTerm.eq_3 _ _ hne, if_pos hb]
    by_cases hcs : cs = []
    · subst hcs
      simp [splitAux, joinNL, normTerm, dropTrailingNewline]
    · rw [joinNL_cons _ _ (splitAux_ne_nil _ _ hcs), ih,
          dropTrailingNewline_cons _ _ (normTerm_ne_nil _ hcs)]
      simp
  | case5 c cs acc hne hb ih =>
    rw [splitAux.eq_3 _ _ _ hne, if_neg hb, normTerm.eq_3 _ _ hne, if_neg hb, ih]
    by_cases hcs : cs = []
    · subst hcs
      simp [normTerm, dropTrailingNewline, not_lb_ne_nl hb]
    · rw [dropTrailingNewline_cons _ _ (normTerm_ne_nil _ hcs)]
      simp

theorem normTerm_length (cs : List Char) : (normTerm cs).length ≤ cs.length := by
  induction cs using normTerm.induct with
  | case1 => simp [normTerm]
  | case2 cs ih => simp [normTerm]; omega
  | case3 c cs hne ih => rw [normTerm.eq_3 _ _ hne]; simp; omega

theorem dropTrailingNewline_eq_self_iff (x : List Char) :
    dropTrailingNewline x = x ↔ x.getLast? ≠ some '\n' := by
  induction x using dropTrailingNewline.induct with
  | case1 => simp [dropTrailingNewline]
  | case2 => simp [dropTrailingNewline]
  | case3 c hc => simp [dropTrailingNewline, hc]
  | case4 c cs hne ih =>
    have hne' : cs ≠ [] := fun h => hne h
    rw [dropTrailingNewline_cons _ _ hne']
    cases cs with
    | nil => exact absurd rfl hne'
    | cons d ds =>
      rw [List.getLast?_cons_cons]
      simp [ih]

theorem dropTrailingNewline_length_lt (x : List Char) (h : x.getLast? = some '\n') :
    (dropTrailingNewline x).length < x.length := by
  induction x using dropTrailingNewline.induct with
  | case1 => simp at h
  | case2 => simp [dropTrailingNewline]
  | case3 c hc => simp at h; exact absurd h hc
  | case4 c cs hne ih =>
    have hne' : cs ≠ [] := fun hh => hne hh
    rw [dropTrailingNewline_cons _ _ hne']
    cases cs with
    | nil => exact absurd rfl hne'
    | cons d ds =>
      rw [List.getLast?_cons_cons] at h
      simpa using ih h

theorem normTerm_eq_self_iff (cs : List Char) :
    normTerm cs = cs ↔ ∀ c ∈ cs, isLineBreak c = true → c = '\n' := by
  induction cs using normTerm.induct with
  | case1 => simp [normTerm]
  | case2 cs ih =>
    rw [normTerm.eq_2]
    simp only [List.cons.injEq]
    constructor
    · intro h
      exact absurd h.1 (by decide)
    · intro h
      exact absurd (h '\r' (by simp) (by decide)) (by decide)
  | case3 c cs hne ih =>
    rw [normTerm.eq_3 _ _ hne]
    by_cases hb : isLineBreak c = true
    · rw [if_pos hb]
      simp only [List.cons.injEq]
      constructor
      · rintro ⟨h1, h2⟩
        intro x hx hxb
        rcases List.mem_cons.mp hx with rfl | hx
        · exact h1.symm
        · exact ih.mp h2 x hx hxb
      · intro h
        refine ⟨(h c (by simp) hb).symm, ih.mpr (fun x hx hxb => h x (by simp [hx]) hxb)⟩
    · rw [if_neg hb]
      simp only [List.cons.injEq, true_and]
      rw [ih]
      constructor
      · intro h x hx hxb
        rcases List.mem_cons.mp hx with rfl | hx
        · exact absurd hxb hb
        · exact h x hx hxb
      · intro h x hx hxb
        exact h x (List.mem_cons_of_mem _ hx) hxb

theorem joinNL_splitAux_eq_self_iff (c : List Char) :
    joinNL (splitAux c []) = c ↔
      ((∀ ch ∈ c, isLineBreak ch = true → ch = '\n') ∧ c.getLast? ≠ some '\n') := by
  rw [joinNL_splitAux, List.reverse_nil, List.nil_append]
  constructor
  · intro h
    have hnt : normTerm c = c := by
      by_cases hl : (normTerm c).getLast? = some '\n'
      · have h1 := dropTrailingNewline_length_lt _ hl
        have h2 := normTerm_length c
        rw [h] at h1
        omega
      · have heq := (dropTrailingNewline_eq_self_iff _).mpr hl
        rw [heq] at h
        exact h
    rw [hnt] at h
    exact ⟨(normTerm_eq_self_iff c).mp hnt, (dropTrailingNewline_eq_self_iff _).mp h⟩
  · rintro ⟨h1, h2⟩
    rw [(normTerm_eq_self_iff c).mpr h1, (dropTrailingNewline_eq_self_iff _).mpr h2]

theorem editCodeFileContent_nil (c : List Char) :
    editCodeFileContent c [] = joinNL (splitAux c []) := by
  rw [editCodeFileContent, sortEdits, List.mergeSort_nil, List.foldl_nil, pySplitlines]

theorem preparedMessages_ok (p : ChatPayload) (ms out : List Msg)
    (hms : p.messages = some ms) (h : preparedMessages p = .ok out) :
    out = if systemTruthy p then sysMsgOf p :: ms else ms := by
  rw [preparedMessages, hms] at h
  by_cases hs : systemTruthy p
  · simp only [hs, if_true] at h ⊢
    have hrole : (sysMsgOf p).role = "system" := rfl
    simp only [hrole, if_pos rfl] at h
    exact (Except.ok.injEq _ _ ▸ h).symm
  · simp only [hs, if_false, Bool.false_eq_true] at h ⊢
    cases ms with
    | nil => simp at h
    | cons m rest =>
      by_cases hr : m.role = "system"
      · simp only [hr, if_pos rfl] at h
        exact (Except.ok.injEq _ _ ▸ h).symm
      · simp [hr] at h

theorem doPOST_ok_iff (st : LLMsState) (sdk : String → List Msg → SDKResponse)
    (p : ChatPayload) (tid t1 t2 : Nat) (r : DoPostResult) :
    doPOST st sdk p tid t1 t2 = .ok r ↔
      ∃ out rd, preparedMessages p = .ok out ∧ LLMs.completion st sdk out = some rd ∧
        r = { calls := [out],
              response :=
                if p.stream then
                  .sse [chunkDelta ("chatcmpl-" ++ toString tid) t1 rd,
                        chunkFinish ("chatcmpl-" ++ toString tid) t2]
                else .json (nonStreamBody ("chatcmpl-" ++ toString tid) t1 rd) } := by
  rw [doPOST]
  cases hp : preparedMessages p with
  | error e => simp
  | ok out =>
    cases hc : LLMs.completion st sdk out with
    | none => simp [hc]
    | some rd =>
      simp only [hc]
      by_cases hs : p.stream <;>
        · simp [hs]
          constructor
          · intro h
            exact ⟨rd, hc, h.symm⟩
          · rintro ⟨x, hx, h⟩
            have hxx := hc.symm.trans hx
            injection hxx with he
            subst he
            exact h.symm

/-! ## Claim theorems -/

/-- C1, counterexample: the payload's message list is NOT always passed
verbatim to the wrapped completion call.  For a payload whose `system`
field is the non-empty string `"be nice"` and whose `messages` list is
the single user message `"hi"`, `do_POST` passes a two-element list (a
prepended system message followed by the original message), which differs
from the payload's one-element list. -/
theorem c1_counterexample :
    doPOST llmInit (fun _ _ => { content := "ok" })
        { messages := some [{ role := "user", content := "hi" }],
          system := some "be nice", stream := false } 0 0 0
      = .ok { calls := [[{ role := "system", content := "be nice" },
                         { role := "user", content := "hi" }]],
              response := .json (nonStreamBody ("chatcmpl-" ++ toString 0) 0 ("ok")) }
    ∧ ([[Msg.mk ("system") ("be nice"), Msg.mk ("user") ("hi")]] : List (List Msg))
        ≠ [[Msg.mk ("user") ("hi")]] := by
  exact ⟨rfl, by decide⟩

/-- C1, amended: for every POST request that `do_POST` completes, the
single message list passed to the wrapped completion call is the
payload's `messages` list unchanged in content and order, except that
when the payload's `system` field is truthy (present and non-empty) a
system message holding that field is prepended; with a falsy `system`
field the list is forwarded verbatim. -/
theorem c1_forwarded_messages (st : LLMsState) (sdk : String → List Msg → SDKResponse)
    (p : ChatPayload) (tid t1 t2 : Nat) (ms : List Msg) (r : DoPostResult)
    (hms : p.messages = some ms)
    (hok : doPOST st sdk p tid t1 t2 = .ok r) :
    r.calls = [if systemTruthy p then sysMsgOf p :: ms else ms] := by
  obtain ⟨out, rd, hp, hc, hr⟩ := (doPOST_ok_iff st sdk p tid t1 t2 r).mp hok
  rw [hr]
  rw [preparedMessages_ok p ms out hms hp]

/-- C1, witness: the amended theorem applied to a concrete request whose
only message already has role `"system"` and whose `system` field is
absent, where the list is forwarded verbatim. -/
theorem c1_witness :
    ({ messages := some [{ role := "system", content := "hi" }],
       system := none, stream := false } : ChatPayload).messages
        = some [{ role := "system", content := "hi" }]
    ∧ ([[Msg.mk ("system") ("hi")]] : List (List Msg))
        = [if systemTruthy { messages := some [{ role := "system", content := "hi" }],
                             system := none, stream := false } then
             sysMsgOf { messages := some [{ role := "system", content := "hi" }],
                        system := none, stream := false }
               :: [{ role := "system", content := "hi" }]
           else [{ role := "system", content := "hi" }]] := by
  refine ⟨rfl, ?_⟩
  have h := c1_forwarded_messages llmInit (fun _ _ => { content := "ok" })
    { messages := some [{ role := "system", content := "hi" }],
      system := none, stream := false } 0 0 0
    [{ role := "system", content := "hi" }]
    { calls := [[{ role := "system", content := "hi" }]],
      response := .json (nonStreamBody ("chatcmpl-" ++ toString 0) 0 ("ok")) }
    rfl (by rfl)
  exact h

/-- C2: every completed `do_POST` makes exactly one wrapped completion
call, and writes either (stream) two server-sent-event chunks with object
`"chat.completion.chunk"` — a delta carrying a content field and null
finish_reason, then a finish chunk with finish_reason `"stop"` — or
(non-stream) a single JSON body with object `"chat.completion"` and
finish_reason `"stop"`. -/
theorem c2_single_call_two_shapes (st : LLMsState) (sdk : String → List Msg → SDKResponse)
    (p : ChatPayload) (tid t1 t2 : Nat) (r : DoPostResult)
    (h : doPOST st sdk p tid t1 t2 = .ok r) :
    r.calls.length = 1 ∧
    (p.stream = true → ∃ k1 k2,
        r.response = .sse [k1, k2] ∧
        k1.lookup ("object") = some (.str ("chat.completion.chunk")) ∧
        ((firstChoice k1).bind
            (fun ch => (ch.lookup ("delta")).bind (fun d => d.lookup ("content")))).isSome ∧
        (firstChoice k1).bind (fun ch => ch.lookup ("finish_reason")) = some .null ∧
        k2.lookup ("object") = some (.str ("chat.completion.chunk")) ∧
        (firstChoice k2).bind (fun ch => ch.lookup ("finish_reason")) = some (.str ("stop"))) ∧
    (p.stream = false → ∃ b,
        r.response = .json b ∧
        b.lookup ("object") = some (.str ("chat.completion")) ∧
        (firstChoice b).bind (fun ch => ch.lookup ("finish_reason")) = some (.str ("stop"))) := by
  obtain ⟨out, rd, hp, hc, hr⟩ := (doPOST_ok_iff st sdk p tid t1 t2 r).mp h
  subst hr
  refine ⟨rfl, ?_, ?_⟩
  · intro hs
    simp only [hs, if_true]
    exact ⟨_, _, rfl, rfl, rfl, rfl, rfl, rfl⟩
  · intro hs
    simp only [hs, Bool.false_eq_true, if_false]
    exact ⟨_, rfl, rfl, rfl⟩

/-- C2, witness: a concrete streaming request that completes, with its
single completion call. -/
theorem c2_witness :
    doPOST llmInit (fun _ _ => { content := "hello" })
        { messages := some [{ role := "system", content := "s" }],
          system := none, stream := true } 0 0 0
      = .ok { calls := [[{ role := "system", content := "s" }]],
              response := .sse [chunkDelta ("chatcmpl-" ++ toString 0) 0 ("hello"),
                                chunkFinish ("chatcmpl-" ++ toString 0) 0] }
    ∧ ([[Msg.mk ("system") ("s")]] : List (List Msg)).length = 1 := by
  refine ⟨rfl, ?_⟩
  exact (c2_single_call_two_shapes llmInit (fun _ _ => { content := "hello" })
    { messages := some [{ role := "system", content := "s" }],
      system := none, stream := true } 0 0 0
    { calls := [[{ role := "system", content := "s" }]],
      response := .sse [chunkDelta ("chatcmpl-" ++ toString 0) 0 ("hello"),
                        chunkFinish ("chatcmpl-" ++ toString 0) 0] } rfl).1

/-- C3: given the same target netloc and the same abstract crawler, the
crawling-and-saving portions of `download_docs` and
`download_documentation` build the same `CrawlerRunConfig`
(best-first strategy with max_depth 1 and external links excluded,
pruning content filter, LXML scraping) and write the same joined
fit_markdown content to the same `.docs/<domain>.md` path. -/
theorem c3_crawlers_equal (netloc : String) (crawl : CrawlerRunConfig → List CrawlResult) :
    download_docs netloc crawl = download_documentation_crawl netloc crawl := rfl

/-- C4, counterexample: on a failing search, `Agent.search` does not
return a dictionary with an `"error"` key — it returns a one-element LIST
containing such a dictionary. -/
theorem c4_counterexample :
    Agent.search 5 (.error ("boom")) = .list [.dict [("error", .str ("boom"))]]
    ∧ (Agent.search 5 (.error ("boom"))).isDict = false := ⟨rfl, rfl⟩

/-- C4, amended: when the wrapped call fails, `browse`, `run_command`
(non-timeout), `read_file` and `write_file` return a dictionary whose
`"error"` key holds the exception's message; `run_command` on a
`TimeoutExpired` returns a dictionary whose `"error"` value is the fixed
string built from the timeout argument (not the exception's message);
`search` returns a one-element list containing the error dictionary.
There is no retry. -/
theorem c4_error_reporting (msg : String) (sel : Option String) (t n tw : Nat)
    (fp : String) (bk fe : Bool) :
    Agent.browse sel (.error msg) = .dict [("error", .str msg)] ∧
    Agent.search n (.error msg) = .list [.dict [("error", .str msg)]] ∧
    Agent.run_command t (.exn msg) = .dict [("error", .str msg)] ∧
    Agent.run_command t (.timeoutExpired msg)
      = .dict [("error", .str ("Command timed out after " ++ toString t ++ " seconds"))] ∧
    Agent.read_file (.error msg) = .dict [("error", .str msg), ("success", .bool false)] ∧
    (Agent.write_file fp bk fe tw (.exnDuringBackup msg)).lookup ("error") = some (.str msg) ∧
    (Agent.write_file fp bk fe tw (.exnDuringWrite msg)).lookup ("error") = some (.str msg) := by
  refine ⟨rfl, rfl, rfl, rfl, rfl, ?_, ?_⟩
  · simp [Agent.write_file, PyVal.lookup]
  · by_cases h : fe && bk <;> simp [Agent.write_file, h, PyVal.lookup]

/-- C5: the chat-completion handler keeps no persisted state — processing
any sequence of requests leaves the global `LLMs` state unchanged, and
each response equals the response `do_POST` gives from the initial state,
independent of which requests were handled before. -/
theorem c5_no_persisted_state (st : LLMsState) (sdk : String → List Msg → SDKResponse)
    (rs : List ChatRequest) :
    processAll st sdk rs
      = (st, rs.map (fun r => doPOST st sdk r.payload r.tid r.t1 r.t2)) := by
  induction rs with
  | nil => rfl
  | cons r rs ih => simp [processAll, ih]

/-- C6: the command-line entry point registers exactly the five
subcommands `browse`, `search`, `run`, `read`, `write`; its dispatcher
maps each of the five to the corresponding `Agent` method and everything
else (including a missing subcommand) to printing help. -/
theorem c6_dispatch :
    registeredSubcommands = ["browse", "search", "run", "read", "write"] ∧
    mainDispatch (some ("browse")) = .call .browse ∧
    mainDispatch (some ("search")) = .call .search ∧
    mainDispatch (some ("run")) = .call .runCommand ∧
    mainDispatch (some ("read")) = .call .readFile ∧
    mainDispatch (some ("write")) = .call .writeFile ∧
    mainDispatch none = .printHelp ∧
    ∀ s : String, s ∉ registeredSubcommands → mainDispatch (some s) = .printHelp := by
  refine ⟨rfl, rfl, rfl, rfl, rfl, rfl, rfl, ?_⟩
  intro s hs
  simp only [registeredSubcommands, List.mem_cons, List.not_mem_nil, or_false] at hs
  push_neg at hs
  obtain ⟨h1, h2, h3, h4, h5⟩ := hs
  simp [mainDispatch, h1, h2, h3, h4, h5]

/-- C6, witness: an unregistered subcommand name dispatches to printing
help. -/
theorem c6_witness :
    ("frobnicate" : String) ∉ registeredSubcommands
    ∧ mainDispatch (some ("frobnicate")) = .printHelp := by
  refine ⟨by decide, ?_⟩
  exact c6_dispatch.2.2.2.2.2.2.2 "frobnicate" (by decide)

/-- C7: the responder is a pass-through formatter — for every completed
request, the assistant content string placed in the response body (the
delta's content when streaming, the message's content otherwise) is
exactly the content string returned by the wrapped `LLMs.completion`
call, untransformed. -/
theorem c7_content_passthrough (st : LLMsState) (sdk : String → List Msg → SDKResponse)
    (p : ChatPayload) (tid t1 t2 : Nat) (out : List Msg) (r : DoPostResult)
    (hprep : preparedMessages p = .ok out)
    (h : doPOST st sdk p tid t1 t2 = .ok r) :
    (p.stream = true →
        sseDeltaContent r.response = (LLMs.completion st sdk out).map .str) ∧
    (p.stream = false →
        jsonMessageContent r.response = (LLMs.completion st sdk out).map .str) := by
  obtain ⟨out', rd, hp, hc, hr⟩ := (doPOST_ok_iff st sdk p tid t1 t2 r).mp h
  have hoo : out' = out := by
    have hpp := hprep.symm.trans hp
    injection hpp with he
    exact he.symm
  subst hoo
  subst hr
  constructor
  · intro hs
    simp only [hs, if_true, hc]
    rfl
  · intro hs
    simp only [hs, Bool.false_eq_true, if_false, hc]
    rfl

/-- C7, witness: the pass-through property at a concrete non-streaming
request whose wrapped call answers `"hello"`. -/
theorem c7_witness :
    preparedMessages { messages := some [{ role := "system", content := "s" }],
                       system := none, stream := false }
      = .ok [{ role := "system", content := "s" }]
    ∧ jsonMessageContent
        (WrittenResponse.json (nonStreamBody ("chatcmpl-" ++ toString 0) 0 ("hello")))
      = (LLMs.completion llmInit (fun _ _ => { content := "hello" })
          [{ role := "system", content := "s" }]).map .str := by
  refine ⟨rfl, ?_⟩
  exact (c7_content_passthrough llmInit (fun _ _ => { content := "hello" })
    { messages := some [{ role := "system", content := "s" }],
      system := none, stream := false } 0 0 0
    [{ role := "system", content := "s" }]
    { calls := [[{ role := "system", content := "s" }]],
      response := .json (nonStreamBody ("chatcmpl-" ++ toString 0) 0 ("hello")) }
    rfl rfl).2 rfl

/-- C8, counterexample: a payload with an empty `messages` list and no
`system` field makes the handler fail with an `IndexError` (from
`messages[0]`), not with an `AssertionError` as the claim states. -/
theorem c8_counterexample :
    preparedMessages { messages := some [], system := none, stream := false }
      = .error .indexError
    ∧ PyErr.indexError ≠ PyErr.assertionError := by
  exact ⟨rfl, by decide⟩

/-- C8, amended: with a falsy `system` field, a non-empty `messages` list
whose first role is not `"system"` fails the assertion; an empty list
fails with `IndexError` and an absent one with `TypeError` (or
`AttributeError` when `system` is truthy) — in every such case the
failure happens before the completion call, since any error from the
preparation step aborts `do_POST`; and a payload with a truthy `system`
field never triggers the assertion. -/
theorem c8_first_message_system (p : ChatPayload) :
    (∀ m rest, p.messages = some (m :: rest) → systemTruthy p = false →
        m.role ≠ "system" → preparedMessages p = .error .assertionError) ∧
    (p.messages = some [] → systemTruthy p = false →
        preparedMessages p = .error .indexError) ∧
    (p.messages = none →
        preparedMessages p = .error (if systemTruthy p then .attributeError else .typeError)) ∧
    (systemTruthy p = true → preparedMessages p ≠ .error .assertionError) ∧
    (∀ e st sdk tid t1 t2, preparedMessages p = .error e →
        doPOST st sdk p tid t1 t2 = .error e) := by
  refine ⟨?_, ?_, ?_, ?_, ?_⟩
  · intro m rest hms hs hrole
    rw [preparedMessages, hms]
    simp [hs, hrole]
  · intro hms hs
    rw [preparedMessages, hms]
    simp [hs]
  · intro hms
    rw [preparedMessages, hms]
    by_cases hs : systemTruthy p <;> simp [hs]
  · intro hs
    cases hms : p.messages with
    | none => rw [preparedMessages, hms]; simp [hs]
    | some ms =>
      rw [preparedMessages, hms]
      have hrole : (sysMsgOf p).role = "system" := rfl
      simp [hs, hrole]
  · intro e st sdk tid t1 t2 hp
    rw [doPOST, hp]

/-- C8, witness: a payload whose first message has role `"user"` and
whose `system` field is absent hits the assertion error. -/
theorem c8_witness :
    ({ messages := some [{ role := "user", content := "hi" }],
       system := none, stream := false } : ChatPayload).messages
      = some [{ role := "user", content := "hi" }]
    ∧ preparedMessages { messages := some [{ role := "user", content := "hi" }],
                         system := none, stream := false }
      = .error .assertionError := by
  refine ⟨rfl, ?_⟩
  exact (c8_first_message_system
    { messages := some [{ role := "user", content := "hi" }],
      system := none, stream := false }).1
    { role := "user", content := "hi" } [] rfl rfl (by decide)

/-- C9, counterexample: `edit_code_file` with the empty edit list is NOT
idempotent — on content `"a\n\n"` one application writes `"a\n"`, a
second application writes `"a"`. -/
theorem c9_counterexample :
    editCodeFileContent ['a', '\n', '\n'] [] = ['a', '\n']
    ∧ editCodeFileContent ['a', '\n'] [] = ['a']
    ∧ editCodeFileContent (editCodeFileContent ['a', '\n', '\n'] []) []
        ≠ editCodeFileContent ['a', '\n', '\n'] [] := by
  rw [editCodeFileContent_nil, editCodeFileContent_nil, editCodeFileContent_nil]
  refine ⟨by decide, by decide, by decide⟩

/-- C9, amended: with the empty edit list, `edit_code_file` writes back
the file's lines joined by `"\n"`, i.e. the original content with all
line terminators normalised to `"\n"` and one trailing line terminator
(if any) removed; it is the identity on content exactly for files whose
line-break characters are already all `"\n"` and which have no trailing
newline — but it is not idempotent in general, since each application
can strip one more trailing newline. -/
theorem c9_empty_edits (c : List Char) :
    editCodeFileContent c [] = dropTrailingNewline (normTerm c) ∧
    (editCodeFileContent c [] = c ↔
      ((∀ ch ∈ c, isLineBreak ch = true → ch = '\n') ∧ c.getLast? ≠ some '\n')) := by
  rw [editCodeFileContent_nil]
  constructor
  · rw [joinNL_splitAux, List.reverse_nil, List.nil_append]
  · exact joinNL_splitAux_eq_self_iff c

/-- C10: `do_search` only prints its results and returns `None` for every
query, despite its declared return type `str`. -/
theorem c10_do_search_returns_none (q : String) (results : List String) :
    (do_search q results).2 = none := rfl
